import Mathlib

/-!
Verification of the frontend-invoke audit script and the mock purchases API.

The audit script (scripts/audit-frontend-invokes.py) extracts `invoke("name")`
call sites from frontend sources, builds two registries of backend operation
names from a single aggregation file (current-generation names captured by the
`commands_v2::(v2_...|runtime_...)` pattern, legacy names captured by a fixed
list of `<qualifier>commands::(...)` patterns), classifies every call site into
one of four buckets, writes a summary plus four TSV reports, and exits 1 iff
the legacy bucket is non-empty.

The mock purchases API (tools/mock-purchases-api/main.py) contributes the
`paginate` helper.

All machine strings are modelled as Lean `String` / `List Char`; file bytes as
`List Nat`; the filesystem, where it matters, as an association list from file
name to content.
-/

/-- The four classification buckets of the audit script. -/
inductive Classification where
  | CurrentOk
  | CurrentMissing
  | Legacy
  | Unknown
deriving DecidableEq, Repr

/-- Model of Python `str.startswith(pre)`. -/
def startswith (s pre : String) : Bool :=
  pre.data.isPrefixOf s.data

/-- The current-generation naming convention test used on call-site names:
`cmd.startswith("v2_") or cmd.startswith("runtime_")`. -/
def matchesConvention (cmd : String) : Bool :=
  startswith cmd "v2_" || startswith cmd "runtime_"

/-- The per-call-site classification rule of the main loop: convention-matching
names are checked against the current registry, all other names against the
legacy registry. -/
def classify (v2set legset : List String) (cmd : String) : Classification :=
  if matchesConvention cmd then
    if cmd ∈ v2set then Classification.CurrentOk else Classification.CurrentMissing
  else
    if cmd ∈ legset then Classification.Legacy else Classification.Unknown

/-- The bucket of call sites receiving classification `k`, in first-seen order
(the loop appends to each bucket in input order, which is a filter). -/
def bucketOf (v2set legset : List String) (invokes : List (String × String))
    (k : Classification) : List (String × String) :=
  invokes.filter (fun p => classify v2set legset p.1 = k)

/-- The `v2_ok` bucket. -/
def v2_ok (v2set legset : List String) (invokes : List (String × String)) :
    List (String × String) :=
  bucketOf v2set legset invokes Classification.CurrentOk

/-- The `missing_v2` bucket. -/
def missing_v2 (v2set legset : List String) (invokes : List (String × String)) :
    List (String × String) :=
  bucketOf v2set legset invokes Classification.CurrentMissing

/-- The `legacy_calls` bucket. -/
def legacy_calls (v2set legset : List String) (invokes : List (String × String)) :
    List (String × String) :=
  bucketOf v2set legset invokes Classification.Legacy

/-- The `unknown` bucket. -/
def unknown (v2set legset : List String) (invokes : List (String × String)) :
    List (String × String) :=
  bucketOf v2set legset invokes Classification.Unknown

/-- The script's final verdict: `if legacy_calls: return 1` / `return 0`. -/
def mainExit (v2set legset : List String) (invokes : List (String × String)) : Nat :=
  if legacy_calls v2set legset invokes ≠ [] then 1 else 0

/-- The deduplicated-name count `len({c for c, _ in rows})` used by the summary. -/
def unique_names (rows : List (String × String)) : Nat :=
  ((rows.map Prod.fst).toFinset).card

/-- A quote character, as in the regex classes `['\"]` and `[^'\"]`. -/
def isQuote (c : Char) : Bool := c = '\'' || c = '"'

/-- Python regex `\s` whitespace (the ASCII part; lines contain no newline). -/
def pySpace (c : Char) : Bool :=
  c = ' ' || c = '\t' || c = '\n' || c = '\r' || c = Char.ofNat 11 || c = Char.ofNat 12

/-- Attempt to match the invocation pattern
`invoke\(\s*['\"]([^'\"]+)['\"]` at the head of `cs`; on success return the
captured name and the remainder of the line after the match. -/
def matchInvokeAt (cs : List Char) : Option (String × List Char) :=
  if "invoke(".data.isPrefixOf cs then
    match (cs.drop 7).dropWhile pySpace with
    | q :: rest3 =>
        if isQuote q then
          match rest3.takeWhile (fun c => !isQuote c),
              rest3.dropWhile (fun c => !isQuote c) with
          | [], _ => none
          | _, [] => none
          | nm, _ :: rest5 => some (String.mk nm, rest5)
        else none
    | [] => none
  else none

/-- Non-overlapping left-to-right scan of one line for the invocation pattern
(`re.finditer`): on a match continue after it, otherwise advance one position. -/
def scanInvokesAux : Nat → List Char → List String
  | 0, _ => []
  | _, [] => []
  | fuel + 1, c :: rest =>
      match matchInvokeAt (c :: rest) with
      | some (nm, rest5) => nm :: scanInvokesAux fuel rest5
      | none => scanInvokesAux fuel rest

/-- All captured invocation names of one line, left to right. -/
def findInvokes (line : String) : List String :=
  scanInvokesAux line.data.length line.data

/-- A frontend source file: its root-relative path and its lines
(`text.splitlines()`). -/
structure SourceFile where
  rel : String
  lines : List String

/-- Call sites of one file: one `(name, "rel:lineno")` pair per match, lines
numbered from 1 (`enumerate(text.splitlines(), 1)`). -/
def extractFile (f : SourceFile) : List (String × String) :=
  f.lines.enum.flatMap fun il =>
    (findInvokes il.2).map fun nm => (nm, f.rel ++ ":" ++ toString (il.1 + 1))

/-- The Call-Site Extractor over the matched frontend files, in enumeration
order. -/
def extractInvokes (files : List SourceFile) : List (String × String) :=
  files.flatMap extractFile

/-- The regex word class `[A-Za-z0-9_]`. -/
def wordChar (c : Char) : Bool :=
  ('A' ≤ c && c ≤ 'Z') || ('a' ≤ c && c ≤ 'z') || ('0' ≤ c && c ≤ '9') || c = '_'

/-- Acceptance test for the captured group of the current-generation pattern
`commands_v2::(v2_[A-Za-z0-9_]+|runtime_[A-Za-z0-9_]+)`: the maximal word run
after the qualifier must extend one of the two prefixes by at least one word
character. -/
def convOk (w : List Char) : Bool :=
  ("v2_".data.isPrefixOf w && decide (4 ≤ w.length)) ||
    ("runtime_".data.isPrefixOf w && decide (9 ≤ w.length))

/-- Acceptance test for a legacy pattern's captured group
`([A-Za-z0-9_]+)`: at least one word character. -/
def legacyOk (w : List Char) : Bool := !w.isEmpty

/-- Non-overlapping left-to-right scan (`re.findall`) for a pattern of the
shape `<qualifier literal>(<word run>)`: at each position, if the qualifier is
present and the maximal word run after it passes `ok`, capture it and resume
after the match; otherwise advance one position. -/
def scanQualAux (qual : List Char) (ok : List Char → Bool) : Nat → List Char → List String
  | 0, _ => []
  | _, [] => []
  | fuel + 1, c :: rest =>
      if qual.isPrefixOf (c :: rest) then
        if ok (((c :: rest).drop qual.length).takeWhile wordChar) then
          String.mk (((c :: rest).drop qual.length).takeWhile wordChar) ::
            scanQualAux qual ok fuel (((c :: rest).drop qual.length).dropWhile wordChar)
        else scanQualAux qual ok fuel rest
      else scanQualAux qual ok fuel rest

/-- `registered_v2`: all captures of the current-generation registration
pattern over the aggregation file text (set membership is list membership). -/
def registeredV2 (t : String) : List String :=
  scanQualAux "commands_v2::".data convOk t.data.length t.data

/-- The fixed list of legacy namespace qualifiers (`legacy_patterns`, each
pattern being the qualifier followed by `([A-Za-z0-9_]+)`). -/
def legacyQualifiers : List String :=
  ["commands::", "library::commands::", "cast::commands::",
    "cast::dlna::commands::", "offline_cache::commands::", "offline::commands::",
    "network::commands::", "lyrics::commands::", "reco_store::commands::"]

/-- `registered_legacy`: the union of the captures of every legacy pattern
over the aggregation file text. -/
def registeredLegacy (t : String) : List String :=
  legacyQualifiers.flatMap fun q =>
    scanQualAux q.data legacyOk t.data.length t.data

/-- A UTF-8 continuation byte `0x80..0xBF`. -/
def isCont (b : Nat) : Bool := decide (0x80 ≤ b) && decide (b ≤ 0xBF)

/-- Valid range of the first continuation byte of a three-byte sequence
(excluding overlong forms and surrogates, as CPython does). -/
def cont1Ok3 (b c1 : Nat) : Bool :=
  if b = 0xE0 then decide (0xA0 ≤ c1) && decide (c1 ≤ 0xBF)
  else if b = 0xED then decide (0x80 ≤ c1) && decide (c1 ≤ 0x9F)
  else isCont c1

/-- Valid range of the first continuation byte of a four-byte sequence
(excluding overlong forms and code points beyond U+10FFFF). -/
def cont1Ok4 (b c1 : Nat) : Bool :=
  if b = 0xF0 then decide (0x90 ≤ c1) && decide (c1 ≤ 0xBF)
  else if b = 0xF4 then decide (0x80 ≤ c1) && decide (c1 ≤ 0x8F)
  else isCont c1

/-- UTF-8 decoding with `errors="ignore"`: each maximal invalid subpart is
skipped and contributes nothing to the output; valid sequences decode to their
code point. -/
def utf8DecodeIgnore : Nat → List Nat → List Nat
  | 0, _ => []
  | _, [] => []
  | fuel + 1, b :: bs =>
      if b < 0x80 then b :: utf8DecodeIgnore fuel bs
      else if 0xC2 ≤ b ∧ b ≤ 0xDF then
        match bs with
        | [] => []
        | c1 :: bs1 =>
            if isCont c1 then
              ((b - 0xC0) * 0x40 + (c1 - 0x80)) :: utf8DecodeIgnore fuel bs1
            else utf8DecodeIgnore fuel bs
      else if 0xE0 ≤ b ∧ b ≤ 0xEF then
        match bs with
        | c1 :: c2 :: bs2 =>
            if cont1Ok3 b c1 then
              if isCont c2 then
                ((b - 0xE0) * 0x1000 + (c1 - 0x80) * 0x40 + (c2 - 0x80)) ::
                  utf8DecodeIgnore fuel bs2
              else utf8DecodeIgnore fuel (c2 :: bs2)
            else utf8DecodeIgnore fuel (c1 :: c2 :: bs2)
        | [c1] => if cont1Ok3 b c1 then [] else utf8DecodeIgnore fuel [c1]
        | [] => []
      else if 0xF0 ≤ b ∧ b ≤ 0xF4 then
        match bs with
        | c1 :: c2 :: c3 :: bs3 =>
            if cont1Ok4 b c1 then
              if isCont c2 then
                if isCont c3 then
                  ((b - 0xF0) * 0x40000 + (c1 - 0x80) * 0x1000 +
                      (c2 - 0x80) * 0x40 + (c3 - 0x80)) ::
                    utf8DecodeIgnore fuel bs3
                else utf8DecodeIgnore fuel (c3 :: bs3)
              else utf8DecodeIgnore fuel (c2 :: c3 :: bs3)
            else utf8DecodeIgnore fuel (c1 :: c2 :: c3 :: bs3)
        | [c1, c2] =>
            if cont1Ok4 b c1 then
              if isCont c2 then [] else utf8DecodeIgnore fuel [c2]
            else utf8DecodeIgnore fuel [c1, c2]
        | [c1] => if cont1Ok4 b c1 then [] else utf8DecodeIgnore fuel [c1]
        | [] => []
      else utf8DecodeIgnore fuel bs

/-- `load_text`: `path.read_text(encoding="utf-8", errors="ignore")` applied
to the file's bytes — tolerant decoding whose result is the list of decoded
code points. -/
def load_text (bytes : List Nat) : List Nat :=
  utf8DecodeIgnore bytes.length bytes

/-- Python list slice `items[a : b]` for nonnegative bounds: the elements with
index `a ≤ i < b`, clamped to the list. -/
def pySlice {α : Type} (items : List α) (a b : Nat) : List α :=
  (items.drop a).take (b - a)

/-- The mapping returned by the mock purchases API's `paginate`. -/
structure PaginateResult (α : Type) where
  offset : Nat
  limit : Nat
  total : Nat
  items : List α

/-- `paginate(items, limit, offset)` of the mock purchases API:
`total` is the full input length and `items` is `items[offset : offset + limit]`. -/
def paginate {α : Type} (items : List α) (limit offset : Nat) : PaginateResult α :=
  { offset := offset, limit := limit, total := items.length,
    items := pySlice items offset (offset + limit) }

/-- The ten-field `summary` dict of the audit script. -/
structure Summary where
  total_callsites : Nat
  v2_ok_callsites : Nat
  missing_v2_callsites : Nat
  legacy_callsites : Nat
  unknown_callsites : Nat
  unique_total : Nat
  unique_v2_ok : Nat
  unique_missing_v2 : Nat
  unique_legacy : Nat
  unique_unknown : Nat

/-- Building the summary from the buckets. -/
def summaryOf (v2set legset : List String) (invokes : List (String × String)) : Summary :=
  { total_callsites := invokes.length,
    v2_ok_callsites := (v2_ok v2set legset invokes).length,
    missing_v2_callsites := (missing_v2 v2set legset invokes).length,
    legacy_callsites := (legacy_calls v2set legset invokes).length,
    unknown_callsites := (unknown v2set legset invokes).length,
    unique_total := unique_names invokes,
    unique_v2_ok := unique_names (v2_ok v2set legset invokes),
    unique_missing_v2 := unique_names (missing_v2 v2set legset invokes),
    unique_legacy := unique_names (legacy_calls v2set legset invokes),
    unique_unknown := unique_names (unknown v2set legset invokes) }

/-- `json.dumps(summary, indent=2)`: the serialized summary record. -/
def renderSummary (s : Summary) : String :=
  "\x7b\n  \"total_callsites\": " ++ toString s.total_callsites ++
    ",\n  \"v2_ok_callsites\": " ++ toString s.v2_ok_callsites ++
    ",\n  \"missing_v2_callsites\": " ++ toString s.missing_v2_callsites ++
    ",\n  \"legacy_callsites\": " ++ toString s.legacy_callsites ++
    ",\n  \"unknown_callsites\": " ++ toString s.unknown_callsites ++
    ",\n  \"unique_total\": " ++ toString s.unique_total ++
    ",\n  \"unique_v2_ok\": " ++ toString s.unique_v2_ok ++
    ",\n  \"unique_missing_v2\": " ++ toString s.unique_missing_v2 ++
    ",\n  \"unique_legacy\": " ++ toString s.unique_legacy ++
    ",\n  \"unique_unknown\": " ++ toString s.unique_unknown ++ "\n\x7d"

/-- The body of `write_tsv`: one `name TAB location NEWLINE` row per pair. -/
def renderTsv (rows : List (String × String)) : String :=
  rows.foldl (fun acc p => acc ++ p.1 ++ "\t" ++ p.2 ++ "\n") ""

/-- Writing (or overwriting) one file of the report directory, modelled as an
association list from file name to content. -/
def fsWrite (fs : List (String × String)) (nm content : String) : List (String × String) :=
  (nm, content) :: fs.filter (fun p => p.1 ≠ nm)

/-- `main()` as a transformation of the report directory: extract the call
sites, read the backend aggregation file (`none` means `read_text` raised —
the file is absent or unreadable — and the exception propagates out before the
report directory is touched), classify, write the summary and the four bucket
TSVs, and return the exit code. -/
def mainRun (frontFiles : List SourceFile) (libText : Option String)
    (fs : List (String × String)) : Option Nat × List (String × String) :=
  let invokes := extractInvokes frontFiles
  match libText with
  | none => (none, fs)
  | some t =>
      let v2set := registeredV2 t
      let legset := registeredLegacy t
      let fs1 := fsWrite fs ("frontend_invoke_summary.json")
        (renderSummary (summaryOf v2set legset invokes))
      let fs2 := fsWrite fs1 ("frontend_v2_ok_callsites.tsv")
        (renderTsv (v2_ok v2set legset invokes))
      let fs3 := fsWrite fs2 ("frontend_missing_v2_callsites.tsv")
        (renderTsv (missing_v2 v2set legset invokes))
      let fs4 := fsWrite fs3 ("frontend_legacy_callsites.tsv")
        (renderTsv (legacy_calls v2set legset invokes))
      let fs5 := fsWrite fs4 ("frontend_unknown_callsites.tsv")
        (renderTsv (unknown v2set legset invokes))
      (some (mainExit v2set legset invokes), fs5)

theorem bucketOf_mem {v2set legset : List String} {invokes : List (String × String)}
    {k : Classification} {p : String × String} :
    p ∈ bucketOf v2set legset invokes k ↔ p ∈ invokes ∧ classify v2set legset p.1 = k := by
  simp [bucketOf, List.mem_filter]

theorem length_four_buckets (v2set legset : List String)
    (invokes : List (String × String)) :
    (v2_ok v2set legset invokes).length + (missing_v2 v2set legset invokes).length +
      (legacy_calls v2set legset invokes).length + (unknown v2set legset invokes).length =
      invokes.length := by
  induction invokes with
  | nil => rfl
  | cons p rest ih =>
      simp only [v2_ok, missing_v2, legacy_calls, unknown, bucketOf, List.filter] at *
      cases h : classify v2set legset p.1 <;> simp [h] <;> omega

/-- C1: the verdict is fail (exit code 1) iff the Legacy bucket is non-empty;
with an empty Legacy bucket the exit code is 0 no matter what the
CurrentMissing and Unknown buckets contain. -/
theorem c1_verdict_iff_legacy (v2set legset : List String)
    (invokes : List (String × String)) :
    (mainExit v2set legset invokes = 1 ↔ legacy_calls v2set legset invokes ≠ []) ∧
      (legacy_calls v2set legset invokes = [] → mainExit v2set legset invokes = 0) := by
  constructor
  · constructor
    · intro h hleg
      simp [mainExit, hleg] at h
    · intro h
      simp [mainExit, h]
  · intro h
    simp [mainExit, h]

theorem c1_verdict_iff_legacy_witness :
    legacy_calls ["v2_a"] ["old_a"] [("v2_a", "f:1")] = [] ∧
      mainExit ["v2_a"] ["old_a"] [("v2_a", "f:1")] = 0 :=
  ⟨by decide, (c1_verdict_iff_legacy ["v2_a"] ["old_a"] [("v2_a", "f:1")]).2 (by decide)⟩

/-- C2: classification is the two-step first-match-wins rule: a
convention-matching name is CurrentOk when registered in the current set and
CurrentMissing otherwise; a non-convention name is Legacy when registered in
the legacy set and Unknown otherwise (regardless of the current set). -/
theorem c2_classification_rule (v2set legset : List String) (cmd : String) :
    (matchesConvention cmd = true → cmd ∈ v2set →
        classify v2set legset cmd = Classification.CurrentOk) ∧
      (matchesConvention cmd = true → cmd ∉ v2set →
        classify v2set legset cmd = Classification.CurrentMissing) ∧
      (matchesConvention cmd = false → cmd ∈ legset →
        classify v2set legset cmd = Classification.Legacy) ∧
      (matchesConvention cmd = false → cmd ∉ legset →
        classify v2set legset cmd = Classification.Unknown) := by
  refine ⟨fun hc hm => ?_, fun hc hm => ?_, fun hc hm => ?_, fun hc hm => ?_⟩ <;>
    simp [classify, hc, hm]

theorem c2_classification_rule_witness :
    matchesConvention "legacy_getTrack" = false ∧
      "legacy_getTrack" ∉ (["old_a"] : List String) ∧
      classify ["v2_a"] ["old_a"] "legacy_getTrack" = Classification.Unknown :=
  ⟨by decide, by decide,
    (c2_classification_rule ["v2_a"] ["old_a"] "legacy_getTrack").2.2.2
      (by decide) (by decide)⟩

/-- C3: the four buckets partition the extracted call sites: the bucket sizes
sum to the total, every call site lands in some bucket, and no call site is in
two buckets. -/
theorem c3_partition (v2set legset : List String) (invokes : List (String × String)) :
    ((v2_ok v2set legset invokes).length + (missing_v2 v2set legset invokes).length +
        (legacy_calls v2set legset invokes).length +
        (unknown v2set legset invokes).length = invokes.length) ∧
      (∀ p, p ∈ invokes ↔
        (p ∈ v2_ok v2set legset invokes ∨ p ∈ missing_v2 v2set legset invokes ∨
          p ∈ legacy_calls v2set legset invokes ∨ p ∈ unknown v2set legset invokes)) ∧
      (∀ p k k', k ≠ k' → p ∈ bucketOf v2set legset invokes k →
        p ∉ bucketOf v2set legset invokes k') := by
  refine ⟨length_four_buckets v2set legset invokes, fun p => ?_, fun p k k' hkk h h' => ?_⟩
  · constructor
    · intro hp
      cases h : classify v2set legset p.1 <;>
        simp [v2_ok, missing_v2, legacy_calls, unknown, bucketOf_mem, hp, h]
    · intro hp
      rcases hp with h | h | h | h <;>
        exact (bucketOf_mem.mp h).1
  · exact hkk ((bucketOf_mem.mp h).2 ▸ (bucketOf_mem.mp h').2.symm ▸ rfl)

theorem c3_partition_witness :
    ("x", "f:2") ∈ ([("v2_a", "f:1"), ("x", "f:2")] : List (String × String)) ∧
      (("x", "f:2") ∈ v2_ok ["v2_a"] ["old_a"] [("v2_a", "f:1"), ("x", "f:2")] ∨
        ("x", "f:2") ∈ missing_v2 ["v2_a"] ["old_a"] [("v2_a", "f:1"), ("x", "f:2")] ∨
        ("x", "f:2") ∈ legacy_calls ["v2_a"] ["old_a"] [("v2_a", "f:1"), ("x", "f:2")] ∨
        ("x", "f:2") ∈ unknown ["v2_a"] ["old_a"] [("v2_a", "f:1"), ("x", "f:2")]) :=
  ⟨by decide,
    ((c3_partition ["v2_a"] ["old_a"] [("v2_a", "f:1"), ("x", "f:2")]).2.1
      ("x", "f:2")).mp (by decide)⟩

theorem legacy_append_one (v2set legset : List String) (invokes : List (String × String))
    (cmd loc : String) (h : classify v2set legset cmd = Classification.Legacy) :
    legacy_calls v2set legset (invokes ++ [(cmd, loc)]) =
      legacy_calls v2set legset invokes ++ [(cmd, loc)] := by
  simp [legacy_calls, bucketOf, List.filter_append, h]

theorem mainExit_zero_iff (v2set legset : List String) (invokes : List (String × String)) :
    mainExit v2set legset invokes = 0 ↔ legacy_calls v2set legset invokes = [] := by
  by_cases h : legacy_calls v2set legset invokes = [] <;> simp [mainExit, h]

/-- C7: on a passing input, appending one call site whose name is in the legacy
registry and does not match the current-generation convention flips the verdict
to fail; conversely, when the appended call site is the only Legacy member,
dropping it gives a passing verdict. -/
theorem c7_verdict_flip (v2set legset : List String) (invokes : List (String × String))
    (cmd loc : String) (h1 : cmd ∈ legset) (h2 : matchesConvention cmd = false) :
    (mainExit v2set legset invokes = 0 →
        mainExit v2set legset (invokes ++ [(cmd, loc)]) = 1) ∧
      (legacy_calls v2set legset invokes = [] →
        mainExit v2set legset invokes = 0 ∧
          mainExit v2set legset (invokes ++ [(cmd, loc)]) = 1) := by
  have hcls : classify v2set legset cmd = Classification.Legacy := by
    simp [classify, h2, h1]
  have happ := legacy_append_one v2set legset invokes cmd loc hcls
  constructor
  · intro h0
    have hnil := (mainExit_zero_iff v2set legset invokes).mp h0
    simp [mainExit, happ, hnil]
  · intro hnil
    refine ⟨(mainExit_zero_iff v2set legset invokes).mpr hnil, ?_⟩
    simp [mainExit, happ, hnil]

theorem c7_verdict_flip_witness :
    "old_a" ∈ (["old_a"] : List String) ∧ matchesConvention "old_a" = false ∧
      mainExit [] ["old_a"] [] = 0 ∧
      mainExit [] ["old_a"] ([] ++ [("old_a", "f:1")]) = 1 :=
  ⟨by decide, by decide,
    (c7_verdict_flip [] ["old_a"] [] "old_a" "f:1" (by decide) (by decide)).2 rfl⟩

/-- C8: the Extractor is a pure function of the file tree: two runs over equal
trees yield identical call-site sequences (same pairs, same order). -/
theorem c8_extractor_deterministic (files files2 : List SourceFile)
    (h : files = files2) : extractInvokes files = extractInvokes files2 :=
  h ▸ rfl

theorem c8_extractor_deterministic_witness :
    extractInvokes [⟨"a.ts", ["invoke(\"v2_x\")"]⟩] =
      extractInvokes [⟨"a.ts", ["invoke(\"v2_x\")"]⟩] :=
  c8_extractor_deterministic [⟨"a.ts", ["invoke(\"v2_x\")"]⟩]
    [⟨"a.ts", ["invoke(\"v2_x\")"]⟩] rfl

theorem names_bucket (v2set legset : List String) (invokes : List (String × String))
    (k : Classification) :
    ((bucketOf v2set legset invokes k).map Prod.fst).toFinset =
      ((invokes.map Prod.fst).toFinset).filter
        (fun n => classify v2set legset n = k) := by
  ext n
  simp only [List.mem_toFinset, List.mem_map, Finset.mem_filter, bucketOf,
    List.mem_filter, decide_eq_true_eq]
  constructor
  · rintro ⟨p, ⟨hp, hcls⟩, rfl⟩
    exact ⟨⟨p, hp, rfl⟩, hcls⟩
  · rintro ⟨⟨p, hp, rfl⟩, hcls⟩
    exact ⟨p, ⟨hp, hcls⟩, rfl⟩

theorem four_filter_card (s : Finset String) (f : String → Classification) :
    s.card =
      (s.filter (fun n => f n = Classification.CurrentOk)).card +
        (s.filter (fun n => f n = Classification.CurrentMissing)).card +
        (s.filter (fun n => f n = Classification.Legacy)).card +
        (s.filter (fun n => f n = Classification.Unknown)).card := by
  induction s using Finset.induction_on with
  | empty => simp
  | @insert a s ha ih =>
      have hnot : ∀ k : Classification,
          a ∉ s.filter (fun n => f n = k) :=
        fun k hm => ha (Finset.mem_of_mem_filter _ hm)
      rw [Finset.card_insert_of_not_mem ha]
      cases h : f a <;>
        simp only [Finset.filter_insert, h, if_pos, if_neg, reduceCtorEq,
          Finset.card_insert_of_not_mem (hnot _), ite_true, ite_false] <;>
        omega

/-- C9: classification depends only on the name, never the location, and the
per-bucket deduplicated name counts partition the distinct names:
`unique_total = unique_v2_ok + unique_missing_v2 + unique_legacy +
unique_unknown`. -/
theorem c9_name_determined (v2set legset : List String)
    (invokes : List (String × String)) :
    (∀ p q : String × String, p ∈ invokes → q ∈ invokes → p.1 = q.1 →
        classify v2set legset p.1 = classify v2set legset q.1) ∧
      unique_names invokes =
        unique_names (v2_ok v2set legset invokes) +
          unique_names (missing_v2 v2set legset invokes) +
          unique_names (legacy_calls v2set legset invokes) +
          unique_names (unknown v2set legset invokes) := by
  constructor
  · intro p q _ _ h
    rw [h]
  · simp only [unique_names, v2_ok, missing_v2, legacy_calls, unknown, names_bucket]
    exact four_filter_card _ _

theorem c9_name_determined_witness :
    classify ["v2_a"] ["old_a"] (("old_a", "f:1") : String × String).1 =
      classify ["v2_a"] ["old_a"] (("old_a", "f:2") : String × String).1 :=
  (c9_name_determined ["v2_a"] ["old_a"] [("old_a", "f:1"), ("old_a", "f:2")]).1
    ("old_a", "f:1") ("old_a", "f:2") (by decide) (by decide) rfl

theorem scanQualAux_mem_ok (qual : List Char) (ok : List Char → Bool) :
    ∀ (fuel : Nat) (cs : List Char) (n : String),
      n ∈ scanQualAux qual ok fuel cs → ok n.data = true := by
  intro fuel
  induction fuel with
  | zero => intro cs n h; simp [scanQualAux] at h
  | succ fuel ih =>
      intro cs n h
      cases cs with
      | nil => simp [scanQualAux] at h
      | cons c rest =>
          rw [scanQualAux] at h
          split at h
          · split at h
            · rcases List.mem_cons.mp h with rfl | hmem
              · assumption
              · exact ih _ n hmem
            · exact ih _ n h
          · exact ih _ n h

/-- C6 counterexample: the two registry sets are not disjoint — with the
aggregation text containing both `commands_v2::v2_foo` and
`commands::v2_foo`, the name `v2_foo` is captured into both sets. -/
theorem c6_registry_overlap :
    "v2_foo" ∈ registeredV2 "commands_v2::v2_foo commands::v2_foo" ∧
      "v2_foo" ∈ registeredLegacy "commands_v2::v2_foo commands::v2_foo" := by
  decide

/-- C6 amended: the registry sets need not be disjoint in general; what holds
is that every current-generation capture bears a convention prefix, so the two
sets are disjoint whenever no legacy capture bears a convention prefix. -/
theorem c6_registry_prefix_disjoint (t : String) :
    (∀ n ∈ registeredV2 t, matchesConvention n = true) ∧
      ((∀ n ∈ registeredLegacy t, matchesConvention n = false) →
        ∀ n ∈ registeredV2 t, n ∉ registeredLegacy t) := by
  have hv2 : ∀ n ∈ registeredV2 t, matchesConvention n = true := by
    intro n hn
    have hok := scanQualAux_mem_ok _ _ _ _ n hn
    rcases Bool.or_eq_true _ _ |>.mp hok with h | h
    · have hp := (Bool.and_eq_true _ _ |>.mp h).1
      simp [matchesConvention, startswith, hp]
    · have hp := (Bool.and_eq_true _ _ |>.mp h).1
      simp [matchesConvention, startswith, hp]
  refine ⟨hv2, fun hleg n hn hmem => ?_⟩
  have h1 := hv2 n hn
  have h2 := hleg n hmem
  rw [h1] at h2
  exact Bool.noConfusion h2

theorem c6_registry_prefix_disjoint_witness :
    (∀ n ∈ registeredLegacy "commands_v2::v2_foo commands::old_bar",
        matchesConvention n = false) ∧
      "v2_foo" ∈ registeredV2 "commands_v2::v2_foo commands::old_bar" ∧
      "v2_foo" ∉ registeredLegacy "commands_v2::v2_foo commands::old_bar" :=
  ⟨by decide, by decide,
    (c6_registry_prefix_disjoint "commands_v2::v2_foo commands::old_bar").2
      (by decide) "v2_foo" (by decide)⟩

/-- C4: when the backend aggregation file is absent or unreadable, the run
aborts with the error propagated before any report artifact is written: no
exit code is produced and the report directory's contents are unchanged. -/
theorem c4_fatal_before_reports (frontFiles : List SourceFile)
    (fs : List (String × String)) :
    mainRun frontFiles none fs = (none, fs) := rfl

/-- C5 counterexample: with the tolerant decoding the script actually uses
(`errors="ignore"`), an invalid byte between two valid characters is dropped,
not replaced: no U+FFFD substitute character appears in the decoded text. -/
theorem c5_ignore_not_replace :
    load_text [0x41, 0xFF, 0x42] = [0x41, 0x42] ∧
      0xFFFD ∉ load_text [0x41, 0xFF, 0x42] := by
  decide

theorem utf8_step_ascii (fuel b : Nat) (bs : List Nat) (h : b < 0x80) :
    utf8DecodeIgnore (fuel + 1) (b :: bs) = b :: utf8DecodeIgnore fuel bs := by
  simp only [utf8DecodeIgnore]
  rw [if_pos h]

theorem utf8_step_invalid (fuel b : Nat) (bs : List Nat) (h : 0xF5 ≤ b) :
    utf8DecodeIgnore (fuel + 1) (b :: bs) = utf8DecodeIgnore fuel bs := by
  simp only [utf8DecodeIgnore]
  rw [if_neg (by omega), if_neg (by omega), if_neg (by omega), if_neg (by omega)]

/-- C5 amended: decoding is tolerant and never fatal, but malformed byte
sequences are dropped (`errors="ignore"`), not substituted: for an input with
an invalid byte between two valid characters the decoded text is the two
characters adjacent, with no substitute character anywhere. -/
theorem c5_malformed_dropped (a x b : Nat) (ha : a < 0x80) (hb : b < 0x80)
    (hx : 0xF5 ≤ x) :
    load_text [a, x, b] = [a, b] ∧ 0xFFFD ∉ load_text [a, x, b] := by
  have h : load_text [a, x, b] = [a, b] := by
    show utf8DecodeIgnore 3 [a, x, b] = [a, b]
    rw [show (3 : Nat) = 2 + 1 from rfl, utf8_step_ascii 2 a [x, b] ha,
      show (2 : Nat) = 1 + 1 from rfl, utf8_step_invalid 1 x [b] hx,
      show (1 : Nat) = 0 + 1 from rfl, utf8_step_ascii 0 b [] hb]
    rfl
  refine ⟨h, ?_⟩
  rw [h]
  simp only [List.mem_cons, List.not_mem_nil, or_false]
  omega

theorem c5_malformed_dropped_witness :
    0x41 < 0x80 ∧ 0x42 < 0x80 ∧ 0xF5 ≤ 0xF8 ∧
      (load_text [0x41, 0xF8, 0x42] = [0x41, 0x42] ∧
        0xFFFD ∉ load_text [0x41, 0xF8, 0x42]) :=
  ⟨by decide, by decide, by decide,
    c5_malformed_dropped 0x41 0xF8 0x42 (by decide) (by decide) (by decide)⟩

/-- C10: for every item list, `limit ≥ 1` and offset, `paginate` reports the
full input length as `total`, echoes `offset` and `limit`, and returns as
`items` the slice of at most `limit` elements starting at `offset` — empty
when the offset is at or past the end of the list. -/
theorem c10_paginate {α : Type} (items : List α) (limit offset : Nat)
    (h : 1 ≤ limit) :
    (paginate items limit offset).total = items.length ∧
      (paginate items limit offset).offset = offset ∧
      (paginate items limit offset).limit = limit ∧
      (paginate items limit offset).items = (items.drop offset).take limit ∧
      (paginate items limit offset).items.length ≤ limit ∧
      (items.length ≤ offset → (paginate items limit offset).items = []) := by
  have hsl : offset + limit - offset = limit := by omega
  refine ⟨rfl, rfl, rfl, ?_, ?_, ?_⟩
  · simp [paginate, pySlice, hsl]
  · simp only [paginate, pySlice, hsl, List.length_take]
    exact le_trans (Nat.min_le_left _ _) (le_refl _)
  · intro hlen
    have hnil : items.drop offset = [] := List.drop_eq_nil_of_le hlen
    simp [paginate, pySlice, hnil]

theorem c10_paginate_witness :
    1 ≤ 2 ∧
      ((paginate [10, 20, 30] 2 1).total = ([10, 20, 30] : List Nat).length ∧
        (paginate [10, 20, 30] 2 1).offset = 1 ∧
        (paginate [10, 20, 30] 2 1).limit = 2 ∧
        (paginate [10, 20, 30] 2 1).items = (([10, 20, 30] : List Nat).drop 1).take 2 ∧
        (paginate [10, 20, 30] 2 1).items.length ≤ 2 ∧
        (([10, 20, 30] : List Nat).length ≤ 1 → (paginate [10, 20, 30] 2 1).items = [])) :=
  ⟨by decide, c10_paginate [10, 20, 30] 2 1 (by decide)⟩
